import Mathlib

/-!
# web-3d-app: verification development

Shallow embedding of the Vue 3 frontend of a browser-based 3D model viewer
and scene editor, together with proofs of its specified behaviours.

Conventions of the embedding:
* JavaScript strings that the code splits, joins or trims are modelled as
  `List Char`; strings used only as opaque payloads (ids, names, messages,
  URLs) stay `String`.
* JavaScript numbers appearing in transform arithmetic are modelled as `ℚ`.
* An `async` handler that awaits exactly one network call is modelled as a
  function from the component state and the call outcome
  (`Except error response`) to the final state reached after the
  `try/catch/finally` completes, together with the list of requests issued.
* A function that can throw is modelled with `Option`/`Except`; `none`
  (resp. `.error`) marks the exceptional exit.
-/

namespace Web3D

/-- Characters treated as whitespace by JavaScript's `String.prototype.trim`
(ASCII subset; the coordinate and tag data handled by the app is ASCII). -/
def isJsWs (c : Char) : Bool :=
  c == ' ' || c == '\t' || c == '\n' || c == '\r' || c == '\x0b' || c == '\x0c'

/-- JavaScript `s.split(sep)` for a one-character separator. -/
def jsSplit (sep : Char) : List Char → List (List Char)
  | [] => [[]]
  | c :: cs =>
    match jsSplit sep cs with
    | [] => [[c]]
    | l :: ls => if c = sep then [] :: l :: ls else (c :: l) :: ls

/-- JavaScript `arr.join(sep)` for a one-character separator. -/
def jsJoin (sep : Char) : List (List Char) → List Char
  | [] => []
  | [l] => l
  | l :: l2 :: ls => l ++ sep :: jsJoin sep (l2 :: ls)

/-- JavaScript `s.trim()`. -/
def jsTrim (s : List Char) : List Char :=
  ((s.dropWhile isJsWs).reverse.dropWhile isJsWs).reverse

theorem jsSplit_ne_nil (sep : Char) (s : List Char) : jsSplit sep s ≠ [] := by
  induction s with
  | nil => simp [jsSplit]
  | cons c cs ih =>
    simp only [jsSplit]
    cases h : jsSplit sep cs with
    | nil => simp
    | cons l ls => by_cases hcs : c = sep <;> simp [hcs]

theorem jsSplit_of_not_mem {sep : Char} {s : List Char} (h : sep ∉ s) :
    jsSplit sep s = [s] := by
  induction s with
  | nil => rfl
  | cons c cs ih =>
    have hc : ¬ (c = sep) := fun e => h (e ▸ List.mem_cons_self c cs)
    have hcs : sep ∉ cs := fun m => h (List.mem_cons_of_mem _ m)
    simp only [jsSplit, ih hcs]
    simp [hc]

theorem jsSplit_append (sep : Char) {a : List Char} (b : List Char) (h : sep ∉ a) :
    jsSplit sep (a ++ sep :: b) = a :: jsSplit sep b := by
  induction a with
  | nil =>
    simp only [List.nil_append, jsSplit]
    cases hb : jsSplit sep b with
    | nil => exact absurd hb (jsSplit_ne_nil sep b)
    | cons l ls => simp
  | cons c cs ih =>
    have hc : ¬ (c = sep) := fun e => h (e ▸ List.mem_cons_self c cs)
    have hcs : sep ∉ cs := fun m => h (List.mem_cons_of_mem _ m)
    rw [List.cons_append]
    simp only [jsSplit]
    rw [ih hcs]
    simp [hc]

theorem jsSplit_jsJoin {sep : Char} {ls : List (List Char)} (hne : ls ≠ [])
    (h : ∀ l ∈ ls, sep ∉ l) : jsSplit sep (jsJoin sep ls) = ls := by
  induction ls with
  | nil => exact absurd rfl hne
  | cons l ls ih =>
    cases ls with
    | nil => simp [jsJoin, jsSplit_of_not_mem (h l (List.mem_cons_self _ _))]
    | cons l2 ls2 =>
      simp only [jsJoin]
      rw [jsSplit_append sep _ (h l (List.mem_cons_self _ _)),
        ih (by simp) (fun x hx => h x (List.mem_cons_of_mem _ hx))]

theorem jsTrim_ne_nil {s : List Char} {c : Char} (hm : c ∈ s)
    (hc : isJsWs c = false) : jsTrim s ≠ [] := by
  unfold jsTrim
  intro hnil
  have hm' : c ∈ s.takeWhile isJsWs ++ s.dropWhile isJsWs := by
    rw [List.takeWhile_append_dropWhile]; exact hm
  rcases List.mem_append.mp hm' with h1 | h1
  · have := List.mem_takeWhile_imp h1
    rw [hc] at this
    exact Bool.noConfusion this
  · rw [List.reverse_eq_nil_iff, List.dropWhile_eq_nil_iff] at hnil
    have := hnil c (List.mem_reverse.mpr h1)
    rw [hc] at this
    exact Bool.noConfusion this

/-! ## The REST client (`src/services/api.js`)

`api.js` wraps an axios instance.  Each exported function either returns
`Promise.reject(new Error msg)` without touching the network, or issues
exactly one HTTP request.  We model this outcome as
`Except String ApiRequest`: `.error msg` is the locally rejected promise
(no request), `.ok r` is the single request `r` handed to axios. -/

/-- HTTP method of a request issued by the client. -/
inductive HttpMethod
  | get
  | post
  | delete
deriving DecidableEq, Repr

/-- A request handed to the axios instance: method and URL. -/
structure ApiRequest where
  method : HttpMethod
  url : String
deriving DecidableEq, Repr

/-- A JavaScript value passed as an `id` argument.  The embedding covers
`undefined`, `null`, strings and (integer) numbers; JavaScript truthiness on
these is: `undefined`, `null`, `''` and `0` are falsy, everything else is
truthy. -/
inductive JsId
  | undef
  | jsNull
  | str (s : String)
  | num (n : Int)
deriving DecidableEq, Repr

/-- JavaScript truthiness of a `JsId` (the `if (!id)` test in `api.js`). -/
def JsId.truthy : JsId → Bool
  | .undef => false
  | .jsNull => false
  | .str s => s ≠ ""
  | .num n => n ≠ 0

/-- JavaScript template-literal rendering of a `JsId`
(the `${id}` inside the URL template). -/
def JsId.render : JsId → String
  | .undef => "undefined"
  | .jsNull => "null"
  | .str s => s
  | .num n => toString n

namespace Api

/-- `api.getModel(id)`: reject when `id` is falsy, else one GET. -/
def getModel (id : JsId) : Except String ApiRequest :=
  if !id.truthy then .error "Model ID is required"
  else .ok ⟨.get, "/api/models/" ++ id.render⟩

/-- `api.deleteModel(id)`: reject when `id` is falsy, else one DELETE. -/
def deleteModel (id : JsId) : Except String ApiRequest :=
  if !id.truthy then .error "Model ID is required"
  else .ok ⟨.delete, "/api/models/" ++ id.render⟩

/-- `api.updateModel(id, data)`: reject when `id` is falsy, else one POST.
The `data` payload is forwarded opaquely and is not part of the model. -/
def updateModel (id : JsId) : Except String ApiRequest :=
  if !id.truthy then .error "Model ID is required"
  else .ok ⟨.post, "/api/models/" ++ id.render ++ "/update"⟩

/-- `api.deleteTexture(id)`: reject when `id` is falsy, else one DELETE. -/
def deleteTexture (id : JsId) : Except String ApiRequest :=
  if !id.truthy then .error "Texture ID is required"
  else .ok ⟨.delete, "/api/textures/" ++ id.render⟩

end Api

/-! ## `api.drawCustomCoords` (`src/services/api.js`, drawing section) -/

/-- The decimal rendering of a finite JavaScript number, as produced by
`` `${parseFloat(v)}` ``.  Such a rendering is a nonempty run of
digit/sign/dot/exponent characters and never contains whitespace; both
facts are carried in the structure. -/
structure JsNum where
  chars : List Char
  ne : chars ≠ []
  noWs : ∀ c ∈ chars, isJsWs c = false

/-- A coordinate point `{x, y, z}` with finite numeric fields. -/
structure Point3 where
  x : JsNum
  y : JsNum
  z : JsNum

/-- `` `${parseFloat(p.x)} ${parseFloat(p.y)} ${parseFloat(p.z)}` ``:
the text line built for one point. -/
def fmtPoint (p : Point3) : List Char :=
  p.x.chars ++ (' ' :: (p.y.chars ++ (' ' :: p.z.chars)))

/-- The `coordinatesText` argument of `drawCustomCoords`: a string, an
array of points, or any other JavaScript value. -/
inductive CoordInput
  | str (s : List Char)
  | arr (pts : List Point3)
  | other

/-- Body of the one `POST /api/draw/custom-coords` request. -/
structure CustomCoordsRequest where
  coordinates_text : List Char
  color : String
  name : String
  use_convex_hull : Bool

namespace Api

/-- The nonblank lines of `coordinatesData`:
`coordinatesData.split('\n').filter(line => line.trim().length > 0)`. -/
def coordLines (coordinatesData : List Char) : List (List Char) :=
  (jsSplit '\n' coordinatesData).filter (fun l => 0 < (jsTrim l).length)

/-- The tail of `api.drawCustomCoords` shared by the string branch and the
array branch: validate the nonblank-line count, then issue the single POST. -/
def drawCustomCoordsData (coordinatesData : List Char) (color name2 : String)
    (useConvexHull : Bool) : Except String CustomCoordsRequest :=
  if (coordLines coordinatesData).length < 3 then
    .error "At least 3 coordinate points are required"
  else .ok ⟨coordinatesData, color, name2, useConvexHull⟩

/-- `api.drawCustomCoords(coordinatesText, color, name, useConvexHull)`:
strings pass through, point arrays are rendered one line per point, any
other value rejects with `'Invalid coordinates format'`; then the
nonblank-line count is validated before the single POST is issued. -/
def drawCustomCoords (input : CoordInput) (color name2 : String)
    (useConvexHull : Bool) : Except String CustomCoordsRequest :=
  match input with
  | .other => .error "Invalid coordinates format"
  | .str s => drawCustomCoordsData s color name2 useConvexHull
  | .arr pts =>
    drawCustomCoordsData (jsJoin '\n' (pts.map fmtPoint)) color name2 useConvexHull

end Api

/-- A model record as held by the client; only the fields the verified
code paths inspect are kept (the rest is forwarded opaquely). -/
structure Model where
  id : String
  name : String
deriving DecidableEq, Repr

/-! ## The model list (`ModelList.vue`) and the home view that hosts it -/

namespace ModelList

/-- Everything observable about one run of `deleteModel(modelId)`:
the requests issued, whether `'model-deleted'` was emitted, and the
`alert` shown, if any. -/
structure DeleteRun where
  requests : List ApiRequest
  emitted : Bool
  alert : Option String
deriving DecidableEq, Repr

/-- `deleteModel(modelId)`: bail out unless the user confirms, then issue
the one DELETE; emit `'model-deleted'` only when it resolves, alert when
it rejects.  `confirmed` is the `confirm(...)` answer and `outcome` the
resolution of the awaited request. -/
def deleteModel (modelId : String) (confirmed : Bool)
    (outcome : Except String Unit) : DeleteRun :=
  if !confirmed then ⟨[], false, none⟩
  else
    match outcome with
    | .ok _ => ⟨[⟨.delete, "/api/models/" ++ modelId⟩], true, none⟩
    | .error _ =>
      ⟨[⟨.delete, "/api/models/" ++ modelId⟩], false,
        some "Failed to delete model. Please try again."⟩

/-- The `@model-deleted="fetchModels"` wiring of the home view: the
displayed `models` list is replaced by a fresh fetch exactly when the
event was emitted, and is untouched otherwise. -/
def displayedAfterDelete (models : List Model) (r : DeleteRun)
    (refetched : List Model) : List Model :=
  if r.emitted then refetched else models

end ModelList

/-! ## The upload form (`ModelUploader.vue`) -/

namespace ModelUploader

/-- `const allowedExtensions = ['.obj', '.gltf', '.glb', '.fbx'];` -/
def allowedExtensions : List String := [".obj", ".gltf", ".glb", ".fbx"]

/-- A selected file; only its name takes part in the validation. -/
structure JsFile where
  name : List Char
deriving DecidableEq, Repr

/-- The refs of the component that the two handlers touch.  `inputValue`
is the file input's `value` attribute, cleared on rejection. -/
structure UploaderState where
  modelName : String
  modelDescription : String
  selectedFile : Option JsFile
  isUploading : Bool
  uploadProgress : ℕ
  error : Option String
  inputValue : List Char
deriving DecidableEq, Repr

/-- `'.' + file.name.split('.').pop().toLowerCase()` -/
def extensionOf (name : List Char) : String :=
  "." ++ (((jsSplit '.' name).getLastD []).map Char.toLower).asString

/-- The rejection message, built from `allowedExtensions.join(', ')`. -/
def unsupportedFormatMsg : String :=
  "Unsupported file format. Supported formats: "
    ++ String.intercalate ", " allowedExtensions

/-- `handleFileChange(event)` with `event.target.files[0]` passed as
`file`: reject unknown extensions, otherwise select the file and auto-fill
the name from the file name when it is still empty. -/
def handleFileChange (s : UploaderState) (file : Option JsFile) : UploaderState :=
  match file with
  | none => s
  | some f =>
    if extensionOf f.name ∉ allowedExtensions then
      { s with error := some unsupportedFormatMsg
               selectedFile := none
               inputValue := [] }
    else
      let s1 := { s with selectedFile := some f, error := none }
      if s1.modelName = "" then
        { s1 with modelName := ((jsSplit '.' f.name).headD []).asString }
      else s1

/-- The multipart POST issued by `uploadModel`. -/
structure UploadRequest where
  url : String
  fileName : List Char
  name : String
  description : String
deriving DecidableEq, Repr

/-- `uploadModel()` up to the point where the POST is handed to axios: the
guards that can prevent submission, and the list of requests issued (empty
when a guard fires).  The response continuation is not modelled here. -/
def uploadModel (s : UploaderState) : UploaderState × List UploadRequest :=
  match s.selectedFile with
  | none => ({ s with error := some "Please select a file to upload" }, [])
  | some f =>
    if jsTrim s.modelName.toList = [] then
      ({ s with error := some "Please enter a name for the model" }, [])
    else
      ({ s with error := none, isUploading := true, uploadProgress := 0 },
        [⟨"/api/models/upload", f.name, s.modelName, s.modelDescription⟩])

end ModelUploader

/-! ## The drawing panel (`ModelDrawer.vue`), custom-coordinates section -/

namespace ModelDrawer

/-- The `customCoordsParams` reactive object. -/
structure CustomCoordsParams where
  loadedCoordinates : List Point3
  fileName : List Char
  color : String
  name : String
  useConvexHull : Bool

/-- An uploaded JSON file.  `parsed` is the combined outcome of
`await file.text()`, `JSON.parse` and `parseCoordinatesFromJson`:
`.ok coords` when the pipeline produces the coordinate list `coords`,
`.error m` when any of its steps throws with message `m`.  The pipeline is
a parameter because file access and `JSON.parse` are host primitives; the
claim quantifies over its result. -/
structure JsonFile where
  name : List Char
  parsed : Except String (List Point3)

/-- `handleJsonFileUpload(event)` with `event.target.files[0]` passed as
`file`.  Returns the new `customCoordsParams` and the `alert` message
shown, if any. -/
def handleJsonFileUpload (s : CustomCoordsParams) (file : Option JsonFile) :
    CustomCoordsParams × Option String :=
  match file with
  | none => (s, none)
  | some f =>
    if !(".json".toList.isSuffixOf (f.name.map Char.toLower)) then
      (s, some "Please select a JSON file")
    else
      match f.parsed with
      | .error m => (s, some ("Error reading JSON file: " ++ m))
      | .ok coords =>
        if coords.length < 3 then
          (s, some ("JSON file must contain at least 3 coordinate points, found "
            ++ toString coords.length))
        else ({ s with loadedCoordinates := coords, fileName := f.name }, none)

/-- The component's `drawCustomCoords()` click handler, up to the point
where the API helper is invoked: the guard alert, and the API call made
(with its outcome as computed by `Api.drawCustomCoords`), if any. -/
def drawCustomCoordsClick (s : CustomCoordsParams) :
    Option String × Option (Except String CustomCoordsRequest) :=
  if s.loadedCoordinates.length < 3 then
    (some ("Custom mesh requires at least 3 points, currently loaded: "
      ++ toString s.loadedCoordinates.length), none)
  else
    (none, some (Api.drawCustomCoords (.arr s.loadedCoordinates)
      s.color s.name s.useConvexHull))

end ModelDrawer

/-! ## The drawing panel (`ModelDrawer.vue`), line section -/

/-- A `{x, y, z}` vector of JavaScript numbers, modelled over `ℚ`. -/
structure Vec3q where
  x : ℚ
  y : ℚ
  z : ℚ
deriving DecidableEq, Repr

namespace ModelDrawer

/-- The `lineParams` reactive object. -/
structure LineParams where
  points : List Vec3q
  color : String
  thickness : ℚ
  name : String
deriving DecidableEq, Repr

/-- The `drawingResult` object: `{success, model}` on success,
`{success, error}` on failure. -/
structure DrawingResult where
  success : Bool
  model : Option Model
  error : Option String
deriving DecidableEq, Repr

/-- The component refs that `drawLine` can touch.  `sessionCommands`
stands for `sessionParams.commands`, carried to state that it is not
modified. -/
structure DrawerState where
  lineParams : LineParams
  sessionCommands : List String
  isDrawing : Bool
  drawingResult : Option DrawingResult
  showLineDrawer : Bool
deriving DecidableEq, Repr

/-- Body of the one `POST /api/draw/line` request: the points as
`[x, y, z]` arrays plus the styling fields. -/
structure LineRequest where
  points : List (List ℚ)
  color : String
  thickness : ℚ
  name : String
deriving DecidableEq, Repr

/-- Everything observable about one run of `drawLine()`. -/
structure DrawLineRun where
  state : DrawerState
  requests : List LineRequest
  alert : Option String
  emitted : Option Model
deriving DecidableEq, Repr

/-- `drawLine()`: guard on the point count, then await the one POST;
`outcome` is its resolution, with `.error e` carrying the message the
catch block computes (`error.response?.data?.detail || error.message`).
The returned state is the one reached after the `finally`. -/
def drawLine (s : DrawerState) (outcome : Except String Model) : DrawLineRun :=
  if s.lineParams.points.length < 2 then
    ⟨s, [], some "Line requires at least 2 points", none⟩
  else
    let req : LineRequest :=
      ⟨s.lineParams.points.map (fun p => [p.x, p.y, p.z]),
        s.lineParams.color, s.lineParams.thickness, s.lineParams.name⟩
    match outcome with
    | .ok m =>
      ⟨{ s with isDrawing := false,
                drawingResult := some ⟨true, some m, none⟩,
                showLineDrawer := false },
        [req], none, some m⟩
    | .error e =>
      ⟨{ s with isDrawing := false,
                drawingResult := some ⟨false, none, some e⟩ },
        [req], none, none⟩

/-- `` `${s.charAt(0).toUpperCase() + s.slice(1)}` ``: capitalize the
first character (the empty string stays empty). -/
def jsCapitalize : List Char → List Char
  | [] => []
  | c :: cs => Char.toUpper c :: cs

/-- Body of the one `POST /api/draw/primitive` request, as built by
`api.drawPrimitive` from the component's arguments.  The component always
passes a name ending in `_Generated`, which is nonempty, so the helper's
`name || …` fallback never fires on this path. -/
structure PrimitiveRequest where
  primitive_type : List Char
  location : List ℚ
  scale : List ℚ
  color : String
  name : List Char
deriving DecidableEq, Repr

/-- Everything observable about one run of `drawPrimitive(primitiveType)`. -/
structure DrawPrimitiveRun where
  state : DrawerState
  requests : List PrimitiveRequest
  emitted : Option Model
deriving DecidableEq, Repr

/-- `drawPrimitive(primitiveType)`: no guard; await the one POST with the
fixed location `[0,0,0]`, scale `[1,1,1]`, color `'#8080ff'` and the
capitalized `…_Generated` name; record the result or the error; `finally`
clears `isDrawing`.  `outcome` is the resolution of the awaited request,
with `.error e` carrying the message the catch block computes. -/
def drawPrimitive (s : DrawerState) (primitiveType : List Char)
    (outcome : Except String Model) : DrawPrimitiveRun :=
  let req : PrimitiveRequest :=
    ⟨primitiveType, [0, 0, 0], [1, 1, 1], "#8080ff",
      jsCapitalize primitiveType ++ "_Generated".toList⟩
  match outcome with
  | .ok m =>
    ⟨{ s with isDrawing := false,
              drawingResult := some ⟨true, some m, none⟩ },
      [req], some m⟩
  | .error e =>
    ⟨{ s with isDrawing := false,
              drawingResult := some ⟨false, none, some e⟩ },
      [req], none⟩

end ModelDrawer

/-! ## The scene selection (`ModelSelector.vue` and `SceneView.vue`)

`selectedModels` is an ordered list of entries.  The two code paths that
add to it build differently shaped objects (the selector uses `{x, y, z}`
records and a scalar scale, the drawer path uses `[x, y, z]` arrays), so a
scene entry is one of two constructors. -/

inductive SceneEntry
  | fromSelector (m : Model) (position : Vec3q) (scale : ℚ)
      (rotation : Vec3q) (color : String)
  | fromDrawer (m : Model) (position : Vec3q) (rotation : Vec3q)
      (scale : Vec3q)
deriving DecidableEq, Repr

/-- The `id` of a scene entry (spread from the underlying model). -/
def SceneEntry.id : SceneEntry → String
  | .fromSelector m _ _ _ _ => m.id
  | .fromDrawer m _ _ _ => m.id

namespace ModelSelector

/-- The refs of `ModelSelector.vue` that `fetchModels` touches. -/
structure SelectorState where
  availableModels : List Model
  loading : Bool
  error : Option String
deriving DecidableEq, Repr

/-- `fetchModels()`: always issues the one GET; on success stores the
list, on failure sets the error banner; `finally` clears `loading`. -/
def fetchModels (s : SelectorState) (outcome : Except String (List Model)) :
    SelectorState × List ApiRequest :=
  match outcome with
  | .ok data =>
    ({ s with availableModels := data, loading := false }, [⟨.get, "/api/models"⟩])
  | .error _ =>
    ({ s with error := some "Failed to load models. Please try again later.",
              loading := false }, [⟨.get, "/api/models"⟩])

/-- `isModelSelected(modelId)`. -/
def isModelSelected (sel : List SceneEntry) (modelId : String) : Bool :=
  sel.any (fun e => e.id == modelId)

/-- `addModel(model)`: append one entry with default transform and the
random color drawn at call time (passed as `randomColor`). -/
def addModel (sel : List SceneEntry) (m : Model) (randomColor : String) :
    List SceneEntry :=
  sel ++ [.fromSelector m ⟨0, 0, 0⟩ 1 ⟨0, 0, 0⟩ randomColor]

/-- `removeModel(modelId)`: keep the entries whose id differs. -/
def removeModel (sel : List SceneEntry) (modelId : String) : List SceneEntry :=
  sel.filter (fun e => e.id ≠ modelId)

/-- `toggleModel(model)`. -/
def toggleModel (sel : List SceneEntry) (m : Model) (randomColor : String) :
    List SceneEntry :=
  if isModelSelected sel m.id then removeModel sel m.id
  else addModel sel m randomColor

end ModelSelector

namespace SceneView

/-- `Math.ceil(Math.sqrt(n))` on a natural number (exact for the integer
arguments this code produces). -/
def ceilSqrt (n : ℕ) : ℕ :=
  if Nat.sqrt n * Nat.sqrt n = n then Nat.sqrt n else Nat.sqrt n + 1

/-- `handleModelCreated(newModel)`: spread the new model into an entry
with a grid position derived from the current count, rotation `[0,0,0]`
and uniform initial scale `1.5`, and push it unconditionally. -/
def handleModelCreated (sel : List SceneEntry) (m : Model) : List SceneEntry :=
  let modelCount := sel.length
  let spacing : ℚ := 4
  let gridSize := ceilSqrt (modelCount + 1)
  let row := modelCount / gridSize
  let col := modelCount % gridSize
  let gridOffset : ℚ := ((gridSize : ℚ) - 1) * spacing / 2
  let initialScale : ℚ := 3 / 2
  sel ++ [.fromDrawer m
    ⟨(col : ℚ) * spacing - gridOffset, 0, (row : ℚ) * spacing - gridOffset⟩
    ⟨0, 0, 0⟩ ⟨initialScale, initialScale, initialScale⟩]

end SceneView

/-! ## The single-model view (`ModelView.vue`) -/

namespace ModelView

/-- The refs of `ModelView.vue` that `fetchModel` touches. -/
structure ModelViewState where
  model : Option Model
  loading : Bool
  error : Option String
deriving DecidableEq, Repr

/-- `fetchModel(modelId)`: bail out on a falsy id without a request;
otherwise issue the one GET, store the model on success, set the error
banner on failure; `loading` ends up `false` on every path. -/
def fetchModel (s : ModelViewState) (modelId : JsId)
    (outcome : Except String Model) : ModelViewState × List ApiRequest :=
  if !modelId.truthy then
    ({ s with error := some "Invalid model ID", loading := false }, [])
  else
    match outcome with
    | .ok m =>
      ({ s with loading := false, error := none, model := some m },
        [⟨.get, "/api/models/" ++ modelId.render⟩])
    | .error e =>
      ({ s with loading := false, error := some ("Failed to load model: " ++ e) },
        [⟨.get, "/api/models/" ++ modelId.render⟩])

end ModelView

/-! ## The scene viewer (`SimpleModelViewer.vue`) -/

namespace SimpleModelViewer

/-- An object of the three.js scene as far as the verified handlers read
it: its model id and the three components of its scale vector. -/
structure SceneObject where
  modelId : String
  scaleX : ℚ
  scaleY : ℚ
  scaleZ : ℚ
deriving DecidableEq, Repr

/-- The viewer refs and plain variables the verified handlers touch.
`controls` is `some enabled` once the OrbitControls object exists and
`none` before (`if (controls)` guards every access). -/
structure ViewerState where
  editMode : Bool
  selectedObject : Option SceneObject
  isDragging : Bool
  controls : Option Bool
  cursor : String
deriving DecidableEq, Repr

/-- `selectObject(object)`: updates the selection ref.  The material
restore/highlight bookkeeping acts on renderer-side maps that no claim
reads and is not part of the state. -/
def selectObject (s : ViewerState) (obj : Option SceneObject) : ViewerState :=
  { s with selectedObject := obj }

/-- `toggleEditMode()`: flip the mode; when it turned off, clear the
selection, stop any drag and reset the cursor; finally mirror
`!editMode` into `controls.enabled` when controls exist. -/
def toggleEditMode (s : ViewerState) : ViewerState :=
  let editMode := !s.editMode
  let s1 := { s with editMode := editMode }
  let s2 :=
    if !editMode then
      { selectObject s1 none with isDragging := false, cursor := "default" }
    else s1
  { s2 with controls := s2.controls.map (fun _ => !editMode) }

/-- A scale-changing gesture: a mouse-wheel tick (`deltaYPos` is
`event.deltaY > 0`) or a click on the `+`/`-` scale buttons
(`scaleObject(0.1)` / `scaleObject(-0.1)`). -/
inductive ScaleOp
  | wheel (deltaYPos : Bool)
  | button (plus : Bool)
deriving DecidableEq, Repr

/-- The scale increment of a gesture: `±0.1`. -/
def ScaleOp.delta : ScaleOp → ℚ
  | .wheel true => -(1 / 10)
  | .wheel false => 1 / 10
  | .button true => 1 / 10
  | .button false => -(1 / 10)

/-- `onMouseWheel` / `scaleObject`: guard (`editMode` too for the wheel),
read `scale.x` (the buttons substitute `1` for a falsy `scale.x`), add the
delta, clamp below at `0.1`, and set all three components. -/
def applyScaleOp (s : ViewerState) (op : ScaleOp) : ViewerState :=
  match op with
  | .wheel _ =>
    if !s.editMode then s
    else
      match s.selectedObject with
      | none => s
      | some o =>
        let newScale := max (1 / 10 : ℚ) (o.scaleX + op.delta)
        let o2 := { o with scaleX := newScale, scaleY := newScale, scaleZ := newScale }
        { s with selectedObject := some o2 }
  | .button _ =>
    match s.selectedObject with
    | none => s
    | some o =>
      let base := if o.scaleX = 0 then 1 else o.scaleX
      let newScale := max (1 / 10 : ℚ) (base + op.delta)
      let o2 := { o with scaleX := newScale, scaleY := newScale, scaleZ := newScale }
      { s with selectedObject := some o2 }

/-- The selected object's scale is uniform and at least `0.1`. -/
def ScaleInv (s : ViewerState) : Prop :=
  ∀ o, s.selectedObject = some o →
    o.scaleX = o.scaleY ∧ o.scaleY = o.scaleZ ∧ (1 / 10 : ℚ) ≤ o.scaleX

end SimpleModelViewer

/-! ## The analyzer's saved descriptions (`ModelAnalyzer.vue`) -/

namespace ModelAnalyzer

/-- A saved-description object.  `technicalData` and `realWorldSize` are
carried opaquely by the code and omitted here. -/
structure Desc where
  id : String
  modelId : String
  title : String
  description : String
  category : String
  tags : List (List Char)
  complexity : String
  savedAt : String
deriving DecidableEq, Repr

/-- The parse of the string stored under the local-storage key
`modelDescriptions`: an array of description objects, or any other JSON
value (including an unparsable string — both make `saved.push` throw). -/
inductive StoredVal
  | arr (l : List Desc)
  | nonArray
deriving DecidableEq, Repr

/-- The component state the three operations touch.  `store` is the
local-storage slot after parsing (`none` when the key is absent, in which
case `|| '[]'` substitutes the empty array); `selectedModelId` is `""`
when no model is selected (falsy). -/
structure AnalyzerState where
  selectedModelId : String
  store : Option StoredVal
  savedDescriptions : List Desc
deriving DecidableEq, Repr

/-- The spec invariant: the key is absent or parses to an array. -/
def StoreInv (st : Option StoredVal) : Prop :=
  st = none ∨ ∃ l, st = some (.arr l)

/-- `JSON.parse(localStorage.getItem('modelDescriptions') || '[]')`,
read under the invariant (the `nonArray` case is unreachable there). -/
def readDescs : Option StoredVal → List Desc
  | none => []
  | some (.arr l) => l
  | some .nonArray => []

/-- The `modelDescription` form object (the fields the save path reads). -/
structure DescForm where
  title : String
  description : String
  category : String
  tags : List Char
  complexity : String

/-- The description object built by `saveModelDescription`: `nowMs`
renders `Date.now()` and `nowIso` `new Date().toISOString()`; the tags
input is split on commas, trimmed and stripped of empties. -/
def mkDesc (selectedModelId : String) (form : DescForm) (nowMs nowIso : String) : Desc where
  id := "desc_" ++ selectedModelId ++ "_" ++ nowMs
  modelId := selectedModelId
  title := form.title
  description := form.description
  category := form.category
  tags := ((jsSplit ',' form.tags).map jsTrim).filter (· ≠ [])
  complexity := form.complexity
  savedAt := nowIso

/-- `saveModelDescription()`: guard on the selected model, read the
store, push one object, write back, mirror the new array into
`savedDescriptions`, and alert.  `none` is the exception exit: the parsed
store is not an array, so `.push` throws before anything is written. -/
def saveModelDescription (s : AnalyzerState) (form : DescForm)
    (nowMs nowIso : String) : Option (AnalyzerState × Option String) :=
  if s.selectedModelId = "" then some (s, none)
  else
    let d := mkDesc s.selectedModelId form nowMs nowIso
    match s.store with
    | some .nonArray => none
    | some (.arr l) =>
      some ({ s with store := some (.arr (l ++ [d])), savedDescriptions := l ++ [d] },
        some "Model description saved successfully!")
    | none =>
      some ({ s with store := some (.arr [d]), savedDescriptions := [d] },
        some "Model description saved successfully!")

/-- `loadSavedDescriptions()`: read-only on the store.  (The assignment
of a non-array parse to the list-typed ref falls outside the model; under
the invariant it cannot occur.) -/
def loadSavedDescriptions (s : AnalyzerState) : Option AnalyzerState :=
  match s.store with
  | some .nonArray => none
  | some (.arr l) => some { s with savedDescriptions := l }
  | none => some { s with savedDescriptions := [] }

/-- `deleteDescription(id)`: after confirmation, keep the in-memory
descriptions whose id differs and write that array back. -/
def deleteDescription (s : AnalyzerState) (confirmed : Bool) (id : String) :
    AnalyzerState :=
  if confirmed then
    let saved := s.savedDescriptions.filter (fun d => d.id ≠ id)
    { s with store := some (.arr saved), savedDescriptions := saved }
  else s

end ModelAnalyzer

theorem nl_not_mem_fmtPoint (p : Point3) : '\n' ∉ fmtPoint p := by
  intro hm
  have hfalse : isJsWs '\n' = false := by
    unfold fmtPoint at hm
    rcases List.mem_append.mp hm with h | h
    · exact p.x.noWs _ h
    · rcases List.mem_cons.mp h with h | h
      · exact absurd h (by decide)
      · rcases List.mem_append.mp h with h | h
        · exact p.y.noWs _ h
        · rcases List.mem_cons.mp h with h | h
          · exact absurd h (by decide)
          · exact p.z.noWs _ h
  exact absurd hfalse (by decide)

theorem fmtPoint_trim_pos (p : Point3) : 0 < (jsTrim (fmtPoint p)).length := by
  obtain ⟨c, hc⟩ : ∃ c, c ∈ p.x.chars := by
    cases hx : p.x.chars with
    | nil => exact absurd hx p.x.ne
    | cons a l => exact ⟨a, hx ▸ List.mem_cons_self a l⟩
  have hm : c ∈ fmtPoint p := List.mem_append.mpr (Or.inl hc)
  exact List.length_pos.mpr (jsTrim_ne_nil hm (p.x.noWs c hc))

theorem coordLines_of_points {pts : List Point3} (hne : pts ≠ []) :
    Api.coordLines (jsJoin '\n' (pts.map fmtPoint)) = pts.map fmtPoint := by
  unfold Api.coordLines
  rw [jsSplit_jsJoin (by simpa using hne)
    (by
      intro l hl
      rcases List.mem_map.mp hl with ⟨p, _, rfl⟩
      exact nl_not_mem_fmtPoint p)]
  rw [List.filter_eq_self]
  intro l hl
  rcases List.mem_map.mp hl with ⟨p, _, rfl⟩
  exact decide_eq_true (fmtPoint_trim_pos p)

/-- A concrete coordinate point `{x: 0, y: 1, z: 2}`, used by witnesses. -/
def samplePoint : Point3 :=
  ⟨⟨['0'], by decide, by decide⟩, ⟨['1'], by decide, by decide⟩,
    ⟨['2'], by decide, by decide⟩⟩

/-- C9: the API client functions `getModel`, `deleteModel`, `updateModel`
and `deleteTexture` reject falsy ids (`undefined`, `null`, `''`, `0`) with
the fixed `'… ID is required'` error and issue no HTTP request; on every
truthy id each issues exactly one request to its `/api` endpoint. -/
theorem c9_id_guard (id : JsId) :
    (id.truthy = false ↔
      id = .undef ∨ id = .jsNull ∨ id = .str "" ∨ id = .num 0)
    ∧ (id.truthy = false →
      Api.getModel id = .error "Model ID is required"
      ∧ Api.deleteModel id = .error "Model ID is required"
      ∧ Api.updateModel id = .error "Model ID is required"
      ∧ Api.deleteTexture id = .error "Texture ID is required")
    ∧ (id.truthy = true →
      Api.getModel id = .ok ⟨.get, "/api/models/" ++ id.render⟩
      ∧ Api.deleteModel id = .ok ⟨.delete, "/api/models/" ++ id.render⟩
      ∧ Api.updateModel id = .ok ⟨.post, "/api/models/" ++ id.render ++ "/update"⟩
      ∧ Api.deleteTexture id = .ok ⟨.delete, "/api/textures/" ++ id.render⟩) := by
  refine ⟨?_, ?_, ?_⟩
  · cases id <;> simp [JsId.truthy]
  · intro h
    simp [Api.getModel, Api.deleteModel, Api.updateModel, Api.deleteTexture, h]
  · intro h
    simp [Api.getModel, Api.deleteModel, Api.updateModel, Api.deleteTexture, h]

theorem c9_id_guard_witness :
    Api.getModel JsId.undef = Except.error "Model ID is required"
    ∧ Api.deleteTexture (JsId.str "") = Except.error "Texture ID is required"
    ∧ Api.getModel (JsId.str "m1") = Except.ok ⟨HttpMethod.get, "/api/models/m1"⟩ :=
  ⟨((c9_id_guard JsId.undef).2.1 (by decide)).1,
   ((c9_id_guard (JsId.str "")).2.1 (by decide)).2.2.2,
   ((c9_id_guard (JsId.str "m1")).2.2 (by decide)).1⟩

/-- C10: `drawCustomCoords` on an input that is neither a string nor an
array rejects with `'Invalid coordinates format'` and issues no request;
on an array of `n ≥ 3` points with finite numeric fields it issues exactly
one request whose `coordinates_text` splits into exactly `n`
newline-separated lines, line `i` being the space-separated `x y z` of
point `i`. -/
theorem c10_drawCustomCoords :
    (∀ color nm hull,
      Api.drawCustomCoords .other color nm hull = .error "Invalid coordinates format")
    ∧ (∀ pts color nm hull, 3 ≤ pts.length →
      Api.drawCustomCoords (.arr pts) color nm hull =
        .ok ⟨jsJoin '\n' (pts.map fmtPoint), color, nm, hull⟩
      ∧ jsSplit '\n' (jsJoin '\n' (pts.map fmtPoint)) = pts.map fmtPoint
      ∧ (pts.map fmtPoint).length = pts.length
      ∧ ∀ i (h : i < pts.length),
          (pts.map fmtPoint).get ⟨i, by simpa using h⟩ = fmtPoint (pts.get ⟨i, h⟩)) := by
  constructor
  · intro color nm hull
    rfl
  · intro pts color nm hull h3
    have hne : pts ≠ [] := by
      intro he
      rw [he] at h3
      simp at h3
    have hsplit : jsSplit '\n' (jsJoin '\n' (pts.map fmtPoint)) = pts.map fmtPoint := by
      have := coordLines_of_points hne
      exact jsSplit_jsJoin (by simpa using hne)
        (by
          intro l hl
          rcases List.mem_map.mp hl with ⟨p, _, rfl⟩
          exact nl_not_mem_fmtPoint p)
    refine ⟨?_, hsplit, List.length_map _ _, ?_⟩
    · show Api.drawCustomCoordsData _ _ _ _ = _
      unfold Api.drawCustomCoordsData
      rw [coordLines_of_points hne, List.length_map]
      rw [if_neg (by omega)]
    · intro i h
      simp

theorem c10_drawCustomCoords_witness :
    Api.drawCustomCoords CoordInput.other "#cccccc" "CustomMesh" true =
      Except.error "Invalid coordinates format"
    ∧ Api.drawCustomCoords (CoordInput.arr (List.replicate 3 samplePoint))
        "#cccccc" "CustomMesh" true =
      Except.ok ⟨jsJoin '\n' ((List.replicate 3 samplePoint).map fmtPoint),
        "#cccccc", "CustomMesh", true⟩ :=
  ⟨c10_drawCustomCoords.1 "#cccccc" "CustomMesh" true,
   (c10_drawCustomCoords.2 _ "#cccccc" "CustomMesh" true (by decide)).1⟩

/-- C3: `handleFileChange` rejects every file whose lowercased extension is
not one of `.obj`, `.gltf`, `.glb`, `.fbx`, setting an error that carries
the accepted-format list and clearing `selectedFile`, after which
`uploadModel` issues no request; files with an accepted extension are not
rejected by this check. -/
theorem c3_upload_extension_check :
    (∀ s f, ModelUploader.extensionOf f.name ∉ ModelUploader.allowedExtensions →
      (ModelUploader.handleFileChange s (some f)).error =
        some ModelUploader.unsupportedFormatMsg
      ∧ ModelUploader.unsupportedFormatMsg =
          "Unsupported file format. Supported formats: .obj, .gltf, .glb, .fbx"
      ∧ (ModelUploader.handleFileChange s (some f)).selectedFile = none
      ∧ (ModelUploader.uploadModel (ModelUploader.handleFileChange s (some f))).2 = [])
    ∧ (∀ s f, ModelUploader.extensionOf f.name ∈ ModelUploader.allowedExtensions →
      (ModelUploader.handleFileChange s (some f)).selectedFile = some f
      ∧ (ModelUploader.handleFileChange s (some f)).error = none) := by
  constructor
  · intro s f h
    refine ⟨?_, by rfl, ?_, ?_⟩ <;>
      simp [ModelUploader.handleFileChange, ModelUploader.uploadModel, h]
  · intro s f h
    simp only [ModelUploader.handleFileChange]
    rw [if_neg (not_not_intro h)]
    constructor <;> (split <;> rfl)

theorem c3_upload_extension_check_witness :
    (ModelUploader.handleFileChange
        ⟨"", "", none, false, 0, none, []⟩ (some ⟨"model.stl".toList⟩)).error =
      some ModelUploader.unsupportedFormatMsg
    ∧ (ModelUploader.handleFileChange
        ⟨"", "", none, false, 0, none, []⟩ (some ⟨"model.stl".toList⟩)).selectedFile = none
    ∧ (ModelUploader.uploadModel (ModelUploader.handleFileChange
        ⟨"", "", none, false, 0, none, []⟩ (some ⟨"model.stl".toList⟩))).2 = []
    ∧ (ModelUploader.handleFileChange
        ⟨"", "", none, false, 0, none, []⟩ (some ⟨"model.obj".toList⟩)).selectedFile =
      some ⟨"model.obj".toList⟩ := by
  have h1 := c3_upload_extension_check.1
    ⟨"", "", none, false, 0, none, []⟩ ⟨"model.stl".toList⟩ (by decide)
  have h2 := c3_upload_extension_check.2
    ⟨"", "", none, false, 0, none, []⟩ ⟨"model.obj".toList⟩ (by decide)
  exact ⟨h1.1, h1.2.2.1, h1.2.2.2, h2.1⟩

/-- C4: a JSON coordinate file whose parsed list has fewer than 3 points is
rejected — the alert names the actual count and `loadedCoordinates` is not
set — and the click handler issues no API call while fewer than 3 points
are loaded; likewise the `drawCustomCoords` API helper rejects, without a
request, any array of fewer than 3 points and any string with fewer than 3
nonblank coordinate lines. -/
theorem c4_min_three_points :
    (∀ s f coords, ".json".toList.isSuffixOf (f.name.map Char.toLower) = true →
      f.parsed = .ok coords → coords.length < 3 →
      ModelDrawer.handleJsonFileUpload s (some f) =
        (s, some ("JSON file must contain at least 3 coordinate points, found "
          ++ toString coords.length)))
    ∧ (∀ s, s.loadedCoordinates.length < 3 →
      (ModelDrawer.drawCustomCoordsClick s).2 = none
      ∧ (ModelDrawer.drawCustomCoordsClick s).1 =
          some ("Custom mesh requires at least 3 points, currently loaded: "
            ++ toString s.loadedCoordinates.length))
    ∧ (∀ pts color nm hull, pts.length < 3 →
      Api.drawCustomCoords (.arr pts) color nm hull =
        .error "At least 3 coordinate points are required")
    ∧ (∀ s color nm hull, (Api.coordLines s).length < 3 →
      Api.drawCustomCoords (.str s) color nm hull =
        .error "At least 3 coordinate points are required") := by
  refine ⟨?_, ?_, ?_, ?_⟩
  · intro s f coords hsuf hparsed hlen
    simp only [ModelDrawer.handleJsonFileUpload]
    rw [hsuf, hparsed]
    simp [hlen]
  · intro s h
    simp [ModelDrawer.drawCustomCoordsClick, h]
  · intro pts color nm hull h
    show Api.drawCustomCoordsData _ _ _ _ = _
    unfold Api.drawCustomCoordsData
    rcases eq_or_ne pts [] with rfl | hne
    · norm_num [Api.coordLines, jsJoin, jsSplit, jsTrim]
    · rw [coordLines_of_points hne, List.length_map, if_pos h]
  · intro s color nm hull h
    show Api.drawCustomCoordsData _ _ _ _ = _
    unfold Api.drawCustomCoordsData
    rw [if_pos h]

theorem c4_min_three_points_witness :
    ModelDrawer.handleJsonFileUpload ⟨[], [], "#cccccc", "CustomMesh", true⟩
        (some ⟨"pts.json".toList, Except.ok [samplePoint]⟩) =
      (⟨[], [], "#cccccc", "CustomMesh", true⟩,
        some ("JSON file must contain at least 3 coordinate points, found "
          ++ toString (1 : ℕ)))
    ∧ (ModelDrawer.drawCustomCoordsClick
        ⟨[samplePoint], [], "#cccccc", "CustomMesh", true⟩).2 = none
    ∧ Api.drawCustomCoords (CoordInput.arr [samplePoint]) "#cccccc" "CustomMesh" true =
      Except.error "At least 3 coordinate points are required"
    ∧ Api.drawCustomCoords (CoordInput.str "1 2".toList) "#cccccc" "CustomMesh" true =
      Except.error "At least 3 coordinate points are required" :=
  ⟨c4_min_three_points.1 ⟨[], [], "#cccccc", "CustomMesh", true⟩
      ⟨"pts.json".toList, Except.ok [samplePoint]⟩ [samplePoint]
      (by decide) rfl (by decide),
   (c4_min_three_points.2.1 ⟨[samplePoint], [], "#cccccc", "CustomMesh", true⟩
      (by decide)).1,
   c4_min_three_points.2.2.1 [samplePoint] "#cccccc" "CustomMesh" true (by decide),
   c4_min_three_points.2.2.2 "1 2".toList "#cccccc" "CustomMesh" true (by decide)⟩

/-- C5: the `'model-deleted'` event that triggers the list refresh is
emitted exactly when the user confirmed and the DELETE resolved; when the
DELETE rejects the displayed list is unchanged and the failure alert is
shown (after one request). -/
theorem c5_delete_confirmed (modelId : String) (confirmed : Bool)
    (outcome : Except String Unit) (models refetched : List Model) :
    ((ModelList.deleteModel modelId confirmed outcome).emitted = true ↔
      confirmed = true ∧ outcome = Except.ok ())
    ∧ (∀ e, outcome = Except.error e →
      ModelList.displayedAfterDelete models
        (ModelList.deleteModel modelId confirmed outcome) refetched = models
      ∧ (confirmed = true →
        (ModelList.deleteModel modelId confirmed outcome).alert =
          some "Failed to delete model. Please try again."
        ∧ (ModelList.deleteModel modelId confirmed outcome).requests.length = 1))
    ∧ (confirmed = true → outcome = Except.ok () →
      ModelList.displayedAfterDelete models
        (ModelList.deleteModel modelId confirmed outcome) refetched = refetched) := by
  cases confirmed <;> rcases outcome with e | u
  · simp [ModelList.deleteModel, ModelList.displayedAfterDelete]
  · simp [ModelList.deleteModel, ModelList.displayedAfterDelete]
  · simp [ModelList.deleteModel, ModelList.displayedAfterDelete]
  · cases u
    simp [ModelList.deleteModel, ModelList.displayedAfterDelete]

theorem c5_delete_confirmed_witness :
    ModelList.displayedAfterDelete [⟨"m1", "cube"⟩]
      (ModelList.deleteModel "m1" true (Except.error "boom")) [] = [⟨"m1", "cube"⟩]
    ∧ (ModelList.deleteModel "m1" true (Except.error "boom")).alert =
      some "Failed to delete model. Please try again."
    ∧ (ModelList.deleteModel "m1" true (Except.ok ())).emitted = true := by
  have h := c5_delete_confirmed "m1" true (Except.error "boom") [⟨"m1", "cube"⟩] []
  have hok := c5_delete_confirmed "m1" true (Except.ok ()) [⟨"m1", "cube"⟩] []
  exact ⟨(h.2.1 "boom" rfl).1, ((h.2.1 "boom" rfl).2 rfl).1, hok.1.mpr ⟨rfl, rfl⟩⟩

/-- C7: when the awaited call rejects, `drawPrimitive`, `drawLine`, the
selector's `fetchModels` and the model view's `fetchModel` each issued
exactly one request, set their user-visible error (`drawingResult.error`
or the error banner), end with the in-flight flag `false`, and leave the
rest of their component state (entered line points, session commands,
previously loaded models) unchanged. -/
theorem c7_failure_handling :
    (∀ s pt e,
      (ModelDrawer.drawPrimitive s pt (.error e)).requests.length = 1
      ∧ (ModelDrawer.drawPrimitive s pt (.error e)).state.drawingResult =
          some ⟨false, none, some e⟩
      ∧ (ModelDrawer.drawPrimitive s pt (.error e)).state.isDrawing = false
      ∧ (ModelDrawer.drawPrimitive s pt (.error e)).state.lineParams = s.lineParams
      ∧ (ModelDrawer.drawPrimitive s pt (.error e)).state.sessionCommands =
          s.sessionCommands
      ∧ (ModelDrawer.drawPrimitive s pt (.error e)).state.showLineDrawer =
          s.showLineDrawer
      ∧ (ModelDrawer.drawPrimitive s pt (.error e)).emitted = none)
    ∧ (∀ s e, 2 ≤ s.lineParams.points.length →
      (ModelDrawer.drawLine s (.error e)).requests.length = 1
      ∧ (ModelDrawer.drawLine s (.error e)).state.drawingResult =
          some ⟨false, none, some e⟩
      ∧ (ModelDrawer.drawLine s (.error e)).state.isDrawing = false
      ∧ (ModelDrawer.drawLine s (.error e)).state.lineParams = s.lineParams
      ∧ (ModelDrawer.drawLine s (.error e)).state.sessionCommands = s.sessionCommands
      ∧ (ModelDrawer.drawLine s (.error e)).state.showLineDrawer = s.showLineDrawer
      ∧ (ModelDrawer.drawLine s (.error e)).emitted = none)
    ∧ (∀ s e,
      ((ModelSelector.fetchModels s (.error e)).2).length = 1
      ∧ (ModelSelector.fetchModels s (.error e)).1.error =
          some "Failed to load models. Please try again later."
      ∧ (ModelSelector.fetchModels s (.error e)).1.loading = false
      ∧ (ModelSelector.fetchModels s (.error e)).1.availableModels = s.availableModels)
    ∧ (∀ s mid e, mid.truthy = true →
      ((ModelView.fetchModel s mid (.error e)).2).length = 1
      ∧ (ModelView.fetchModel s mid (.error e)).1.error =
          some ("Failed to load model: " ++ e)
      ∧ (ModelView.fetchModel s mid (.error e)).1.loading = false
      ∧ (ModelView.fetchModel s mid (.error e)).1.model = s.model) := by
  refine ⟨?_, ?_, ?_, ?_⟩
  · intro s pt e
    exact ⟨rfl, rfl, rfl, rfl, rfl, rfl, rfl⟩
  · intro s e h
    have hlt : ¬ s.lineParams.points.length < 2 := by omega
    simp [ModelDrawer.drawLine, hlt]
  · intro s e
    simp [ModelSelector.fetchModels]
  · intro s mid e h
    simp [ModelView.fetchModel, h]

theorem c7_failure_handling_witness :
    (ModelDrawer.drawPrimitive
      ⟨⟨[⟨0, 0, 0⟩, ⟨1, 1, 0⟩], "#ffffff", 1 / 100, "Line"⟩, [], true, none, true⟩
      "cube".toList (Except.error "boom")).state.drawingResult =
        some ⟨false, none, some "boom"⟩
    ∧ (ModelDrawer.drawLine
      ⟨⟨[⟨0, 0, 0⟩, ⟨1, 1, 0⟩], "#ffffff", 1 / 100, "Line"⟩, [], true, none, true⟩
      (Except.error "boom")).state.drawingResult = some ⟨false, none, some "boom"⟩
    ∧ ((ModelSelector.fetchModels ⟨[], true, none⟩ (Except.error "boom")).2).length = 1
    ∧ (ModelView.fetchModel ⟨none, true, none⟩ (JsId.str "m1")
        (Except.error "boom")).1.error = some ("Failed to load model: " ++ "boom") := by
  have h0 := c7_failure_handling.1
    ⟨⟨[⟨0, 0, 0⟩, ⟨1, 1, 0⟩], "#ffffff", 1 / 100, "Line"⟩, [], true, none, true⟩
    "cube".toList "boom"
  have h1 := c7_failure_handling.2.1
    ⟨⟨[⟨0, 0, 0⟩, ⟨1, 1, 0⟩], "#ffffff", 1 / 100, "Line"⟩, [], true, none, true⟩
    "boom" (by decide)
  have h3 := c7_failure_handling.2.2.2 ⟨none, true, none⟩ (JsId.str "m1") "boom" (by decide)
  exact ⟨h0.2.1, h1.2.1, (c7_failure_handling.2.2.1 ⟨[], true, none⟩ "boom").1, h3.2.1⟩

/-- C1: adding a model whose id is already in the selection never throws
and always creates a second independent instance: both add paths — the
selector's `addModel` and the scene view's `handleModelCreated` — append
exactly one fresh entry carrying the model's id and leave every existing
entry untouched, so every such add behaves the same way during a run.
(The selector's `toggleModel` removes when the id is present, so it never
performs a duplicate add.) -/
theorem c1_duplicate_add (sel : List SceneEntry) (m : Model) (randomColor : String)
    (h : ModelSelector.isModelSelected sel m.id = true) :
    (∃ e, SceneView.handleModelCreated sel m = sel ++ [e] ∧ SceneEntry.id e = m.id)
    ∧ (∃ e, ModelSelector.addModel sel m randomColor = sel ++ [e]
        ∧ SceneEntry.id e = m.id)
    ∧ (SceneView.handleModelCreated sel m).length = sel.length + 1
    ∧ (ModelSelector.addModel sel m randomColor).length = sel.length + 1 := by
  refine ⟨⟨_, rfl, rfl⟩, ⟨_, rfl, rfl⟩, ?_, ?_⟩
  · simp [SceneView.handleModelCreated]
  · simp [ModelSelector.addModel]

theorem c1_duplicate_add_witness :
    (SceneView.handleModelCreated
      [SceneEntry.fromSelector ⟨"m1", "cube"⟩ ⟨0, 0, 0⟩ 1 ⟨0, 0, 0⟩ "#ff0000"]
      ⟨"m1", "cube"⟩).length = 2
    ∧ (ModelSelector.addModel
      [SceneEntry.fromSelector ⟨"m1", "cube"⟩ ⟨0, 0, 0⟩ 1 ⟨0, 0, 0⟩ "#ff0000"]
      ⟨"m1", "cube"⟩ "#00ff00").length = 2 := by
  have h := c1_duplicate_add
    [SceneEntry.fromSelector ⟨"m1", "cube"⟩ ⟨0, 0, 0⟩ 1 ⟨0, 0, 0⟩ "#ff0000"]
    ⟨"m1", "cube"⟩ "#00ff00" (by decide)
  exact ⟨h.2.2.1, h.2.2.2⟩

/-- C2: whenever edit mode is on — whatever the selection or drag state —
`toggleEditMode` turns it off, nulls the selection, and sets
`controls.enabled` to `true`. -/
theorem c2_toggle_edit_mode_off (s : SimpleModelViewer.ViewerState) (b : Bool)
    (hEdit : s.editMode = true) (hCtl : s.controls = some b) :
    (SimpleModelViewer.toggleEditMode s).editMode = false
    ∧ (SimpleModelViewer.toggleEditMode s).selectedObject = none
    ∧ (SimpleModelViewer.toggleEditMode s).controls = some true := by
  simp [SimpleModelViewer.toggleEditMode, SimpleModelViewer.selectObject, hEdit, hCtl]

theorem c2_toggle_edit_mode_off_witness :
    (SimpleModelViewer.toggleEditMode
      ⟨true, some ⟨"m1", 1, 1, 1⟩, true, some false, "move"⟩).editMode = false
    ∧ (SimpleModelViewer.toggleEditMode
      ⟨true, some ⟨"m1", 1, 1, 1⟩, true, some false, "move"⟩).selectedObject = none
    ∧ (SimpleModelViewer.toggleEditMode
      ⟨true, some ⟨"m1", 1, 1, 1⟩, true, some false, "move"⟩).controls = some true :=
  c2_toggle_edit_mode_off ⟨true, some ⟨"m1", 1, 1, 1⟩, true, some false, "move"⟩
    false rfl rfl

theorem setScale_inv (s : SimpleModelViewer.ViewerState)
    (o : SimpleModelViewer.SceneObject) (v : ℚ) (hv : 1 / 10 ≤ v) :
    SimpleModelViewer.ScaleInv
      { s with selectedObject := some { o with scaleX := v, scaleY := v, scaleZ := v } } := by
  intro o2 h2
  have h3 := Option.some.inj h2
  subst h3
  exact ⟨rfl, rfl, hv⟩

theorem applyScaleOp_inv (s : SimpleModelViewer.ViewerState)
    (op : SimpleModelViewer.ScaleOp) (h : SimpleModelViewer.ScaleInv s) :
    SimpleModelViewer.ScaleInv (SimpleModelViewer.applyScaleOp s op) := by
  cases op with
  | wheel d =>
    simp only [SimpleModelViewer.applyScaleOp]
    cases hE : s.editMode with
    | false => simpa using h
    | true =>
      simp only [Bool.not_true, Bool.false_eq_true, if_false]
      cases hm : s.selectedObject with
      | none => simpa [hm] using h
      | some o =>
        exact setScale_inv s o _ (le_max_left _ _)
  | button b =>
    simp only [SimpleModelViewer.applyScaleOp]
    cases hm : s.selectedObject with
    | none => simpa [hm] using h
    | some o =>
      exact setScale_inv s o _ (le_max_left _ _)

/-- C8: every scale gesture (wheel tick or `+`/`-` button) moves the
selected object's scale by `±0.1` clamped below at `0.1` and writes the
same value to all three components, so the invariant "uniform scale of at
least `0.1`" is preserved by every gesture and every sequence of gestures:
no sequence can make the scale zero, negative, or non-uniform. -/
theorem c8_scale_invariant :
    (∀ s op, SimpleModelViewer.ScaleInv s →
      SimpleModelViewer.ScaleInv (SimpleModelViewer.applyScaleOp s op))
    ∧ (∀ s (ops : List SimpleModelViewer.ScaleOp), SimpleModelViewer.ScaleInv s →
      SimpleModelViewer.ScaleInv (ops.foldl SimpleModelViewer.applyScaleOp s))
    ∧ (∀ op : SimpleModelViewer.ScaleOp,
      op.delta = 1 / 10 ∨ op.delta = -(1 / 10))
    ∧ (∀ s o op, s.selectedObject = some o → s.editMode = true → o.scaleX ≠ 0 →
      (SimpleModelViewer.applyScaleOp s op).selectedObject =
        some { o with scaleX := max (1 / 10) (o.scaleX + op.delta),
                      scaleY := max (1 / 10) (o.scaleX + op.delta),
                      scaleZ := max (1 / 10) (o.scaleX + op.delta) }) := by
  refine ⟨applyScaleOp_inv, ?_, ?_, ?_⟩
  · intro s ops h
    induction ops generalizing s with
    | nil => exact h
    | cons op ops ih => exact ih _ (applyScaleOp_inv s op h)
  · intro op
    cases op with
    | wheel d => cases d <;> simp [SimpleModelViewer.ScaleOp.delta]
    | button b => cases b <;> simp [SimpleModelViewer.ScaleOp.delta]
  · intro s o op hm hE hne
    cases op with
    | wheel d => simp [SimpleModelViewer.applyScaleOp, hE, hm]
    | button b => simp [SimpleModelViewer.applyScaleOp, hm, hne]

theorem c8_scale_invariant_witness :
    SimpleModelViewer.ScaleInv
      (([SimpleModelViewer.ScaleOp.wheel true, SimpleModelViewer.ScaleOp.button false,
          SimpleModelViewer.ScaleOp.wheel true]).foldl SimpleModelViewer.applyScaleOp
        ⟨true, some ⟨"m1", 3 / 2, 3 / 2, 3 / 2⟩, false, some false, "default"⟩) := by
  refine c8_scale_invariant.2.1
    ⟨true, some ⟨"m1", 3 / 2, 3 / 2, 3 / 2⟩, false, some false, "default"⟩
    [SimpleModelViewer.ScaleOp.wheel true, SimpleModelViewer.ScaleOp.button false,
      SimpleModelViewer.ScaleOp.wheel true] ?_
  intro o h
  have h3 := Option.some.inj h
  subst h3
  exact ⟨rfl, rfl, by norm_num⟩

/-- C6: the saved-description operations keep the `modelDescriptions`
local-storage slot an array of description objects; `saveModelDescription`
appends exactly one object whose `modelId` is the selected model's id,
`loadSavedDescriptions` leaves the slot untouched, and
`deleteDescription` removes exactly the objects whose `id` equals the
given id, leaving all others unchanged. -/
theorem c6_descriptions_invariant :
    (∀ s form nowMs nowIso, ModelAnalyzer.StoreInv s.store →
      s.selectedModelId ≠ "" →
      ∃ s2 a, ModelAnalyzer.saveModelDescription s form nowMs nowIso = some (s2, a)
        ∧ s2.store = some (.arr (ModelAnalyzer.readDescs s.store
            ++ [ModelAnalyzer.mkDesc s.selectedModelId form nowMs nowIso]))
        ∧ (ModelAnalyzer.mkDesc s.selectedModelId form nowMs nowIso).modelId =
            s.selectedModelId
        ∧ ModelAnalyzer.StoreInv s2.store)
    ∧ (∀ s, ModelAnalyzer.StoreInv s.store →
      ∃ s2, ModelAnalyzer.loadSavedDescriptions s = some s2 ∧ s2.store = s.store)
    ∧ (∀ s id,
      (ModelAnalyzer.deleteDescription s true id).savedDescriptions =
        s.savedDescriptions.filter (fun d => d.id ≠ id)
      ∧ (ModelAnalyzer.deleteDescription s true id).store =
        some (.arr (s.savedDescriptions.filter (fun d => d.id ≠ id)))
      ∧ ModelAnalyzer.StoreInv (ModelAnalyzer.deleteDescription s true id).store
      ∧ (∀ d ∈ s.savedDescriptions,
        d ∈ (ModelAnalyzer.deleteDescription s true id).savedDescriptions ↔ d.id ≠ id))
    ∧ (∀ s id, ModelAnalyzer.deleteDescription s false id = s) := by
  refine ⟨?_, ?_, ?_, ?_⟩
  · intro s form nowMs nowIso hInv hSel
    rcases hInv with hNone | ⟨l, hArr⟩
    · refine ⟨{ s with
          store := some (.arr [ModelAnalyzer.mkDesc s.selectedModelId form nowMs nowIso]),
          savedDescriptions := [ModelAnalyzer.mkDesc s.selectedModelId form nowMs nowIso] },
        some "Model description saved successfully!", ?_, ?_, rfl, Or.inr ⟨_, rfl⟩⟩
      · simp [ModelAnalyzer.saveModelDescription, hSel, hNone]
      · simp [hNone, ModelAnalyzer.readDescs]
    · refine ⟨{ s with
          store := some (.arr (l ++ [ModelAnalyzer.mkDesc s.selectedModelId form nowMs nowIso])),
          savedDescriptions := l ++ [ModelAnalyzer.mkDesc s.selectedModelId form nowMs nowIso] },
        some "Model description saved successfully!", ?_, ?_, rfl, Or.inr ⟨_, rfl⟩⟩
      · simp [ModelAnalyzer.saveModelDescription, hSel, hArr]
      · simp [hArr, ModelAnalyzer.readDescs]
  · intro s hInv
    rcases hInv with hNone | ⟨l, hArr⟩
    · refine ⟨{ s with savedDescriptions := [] }, ?_, rfl⟩
      simp [ModelAnalyzer.loadSavedDescriptions, hNone]
    · refine ⟨{ s with savedDescriptions := l }, ?_, rfl⟩
      simp [ModelAnalyzer.loadSavedDescriptions, hArr]
  · intro s id
    refine ⟨rfl, rfl, Or.inr ⟨_, rfl⟩, ?_⟩
    intro d hd
    simp [ModelAnalyzer.deleteDescription, List.mem_filter, hd]
  · intro s id
    rfl

/-- A concrete saved description, used by the C6 witness. -/
def sampleDesc : ModelAnalyzer.Desc :=
  ⟨"desc_m1_1", "m1", "chair", "", "furniture", [], "simple", "2026-01-01T00:00:00Z"⟩

/-- A concrete description form, used by the C6 witness. -/
def sampleForm : ModelAnalyzer.DescForm :=
  ⟨"chair", "", "furniture", "a, b".toList, "simple"⟩

theorem c6_descriptions_invariant_witness :
    (ModelAnalyzer.mkDesc "m1" sampleForm "2" "iso").modelId = "m1"
    ∧ (ModelAnalyzer.deleteDescription ⟨"m1", some (.arr [sampleDesc]), [sampleDesc]⟩
        true "desc_m1_1").savedDescriptions = []
    ∧ ModelAnalyzer.StoreInv (ModelAnalyzer.deleteDescription
        ⟨"m1", some (.arr [sampleDesc]), [sampleDesc]⟩ true "desc_m1_1").store := by
  obtain ⟨s2, a, _, _, hmid, _⟩ := c6_descriptions_invariant.1
    ⟨"m1", some (.arr [sampleDesc]), [sampleDesc]⟩ sampleForm "2" "iso"
    (Or.inr ⟨[sampleDesc], rfl⟩) (by decide)
  have hdel := c6_descriptions_invariant.2.2.1
    ⟨"m1", some (.arr [sampleDesc]), [sampleDesc]⟩ "desc_m1_1"
  refine ⟨hmid, ?_, hdel.2.2.1⟩
  rw [hdel.1]
  decide

end Web3D
